import Mathlib

/-!
# Verification of the TensorView shape/container/subview machinery

Shallow embedding of the TensorView C++ header library (namespace `tensor`).
Machine integers: `index_t` is `unsigned long`; all quantities that appear in
the verified claims (extents, indices, strides, offsets) are non-negative and
bounded by the element count of a realizable buffer, so they are embedded as
`Nat` (no wrap occurs on any reachable value).  User-supplied constructor
arguments, which in C++ may be negative signed integers before conversion to
`index_t`, are embedded as `Int` where the sign check matters
(`DynamicTensorShape` construction / reshape).

The debug-build (`TENSOR_DEBUG`) checks are embedded as `Except`-returning
functions; the release-path value semantics are embedded as total functions.
-/

namespace TensorViewModel

/-- Error taxonomy of `errors.hpp`:
`tensor_out_of_range` (std::out_of_range), `tensor_bad_memory_access`
(std::runtime_error, "attempting to dereference nullptr"),
`tensor_bad_shape` (std::logic_error, "all dimensions must be strictly positive"). -/
inductive TError where
  | outOfRange
  | badAccess
  | badShape
  deriving DecidableEq, Repr

/-! ## All-integer index computation

`DynamicTensorShape::compute_index` (DynamicTensorShape.hpp:98-113) on integer
arguments is
`Dim + 1 < Rank ?  index + _shape[Dim] * compute_index<Dim+1>(rest) : index`.
`FixedTensorShape::compute_index` (FixedTensorShape.hpp:64-79) is structurally
identical with compile-time extents.  We embed both as one function on lists
(indices paired with extents, head = dimension 0); the last-dimension case
`index` equals `index + e * 0`, so a uniform recursion is value-identical. -/

def compute_index : List ℕ → List ℕ → ℕ
  | i :: is, e :: es => i + e * compute_index is es
  | _, _ => 0

/-- In-range predicate for an index tuple against an extent tuple
(the `TENSOR_DEBUG` check `index >= _shape[Dim]` fails iff this is false). -/
def inRangeB : List ℕ → List ℕ → Bool
  | [], [] => true
  | i :: is, e :: es => decide (i < e) && inRangeB is es
  | _, _ => false

/-- `StridedShape<Rank>::compute_index` (StridedShape, FixedTensorShape.hpp)
on integer arguments:
`Dim + 1 < Rank ? strides[Dim] * index + compute_index<Dim+1>(rest) : strides[Dim] * index`.
Uniform recursion: the last case equals `strides[Dim] * index + 0`. -/
def strided_compute : List ℕ → List ℕ → ℕ
  | i :: is, s :: ss => s * i + strided_compute is ss
  | _, _ => 0

/-! ## span algebra (span.hpp) -/

/-- `struct span { index_t begin; index_t end; index_t stride; }`.
(`end` is a Lean keyword, the field is named `end_`.) -/
structure Span where
  begin : ℕ
  end_ : ℕ
  stride : ℕ
  deriving DecidableEq, Repr

/-- `span::size() = (end - begin) / stride` (index_t division). -/
def spanSize (x : Span) : ℕ := (x.end_ - x.begin) / x.stride

/-- `operator+(const span &x, index_t i)` : offset both endpoints. -/
def offsetSpan (x : Span) (i : ℕ) : Span := ⟨x.begin + i, x.end_ + i, x.stride⟩

/-- `operator*(index_t s, const span &x)` : scale begin, end and stride. -/
def scaleSpan (s : ℕ) (x : Span) : Span := ⟨s * x.begin, s * x.end_, s * x.stride⟩

/-- `scale(s, spans)` : scale every span of a multidimensional span. -/
def scaleSpans (s : ℕ) (ss : List Span) : List Span := ss.map (scaleSpan s)

/-- `add(i, spans)` : offset a multidimensional span by an index —
the index is added to `spans[0]` only. -/
def addFirst (i : ℕ) : List Span → List Span
  | x :: rest => offsetSpan x i :: rest
  | [] => []

/-- `offset(spans)` : sum of the begins (span.hpp, used by `make_subview`). -/
def offsetOf (ss : List Span) : ℕ := (ss.map Span.begin).sum

/-! ## Mixed-argument shape evaluation

`DynamicTensorShape::compute_index` overloads for `span` and `all`
(DynamicTensorShape.hpp:115-139); the `FixedTensorShape` overloads are
structurally identical.  An argument is an integer, a `span`, or `all`;
the result is either a single linear offset (all-integer case) or an ordered
tuple of spans. -/

inductive Arg where
  | int (i : ℕ)
  | range (x : Span)
  | wild
  deriving Repr

inductive EvalResult where
  | scalar (n : ℕ)
  | spans (ss : List Span)
  deriving DecidableEq, Repr

/-- The recursion of the three `compute_index` overloads.  At the last
dimension an integer yields itself, a span yields itself and `all` yields
`span(0, extent)`.  At inner dimension `Dim` with extent `e`:
integer `i` yields `i + e * rest` (scale the tail result by `e`, then offset —
for a span tuple the offset lands on the first span only, per `add`);
a span `x` yields `x + e * rest` (offset `x` by `e * n` when the tail is the
scalar `n`, or concatenate `x` in front of the scaled tuple);
`all` behaves as the span `span(0, e)`. -/
def evaluateArgs : List Arg → List ℕ → EvalResult
  | [Arg.int i], [_] => .scalar i
  | [Arg.range x], [_] => .spans [x]
  | [Arg.wild], [e] => .spans [Span.mk 0 e 1]
  | a :: args, e :: es =>
    match a, evaluateArgs args es with
    | .int i, .scalar n => .scalar (i + e * n)
    | .int i, .spans ss => .spans (addFirst i (scaleSpans e ss))
    | .range x, .scalar n => .spans [offsetSpan x (e * n)]
    | .range x, .spans ss => .spans (x :: scaleSpans e ss)
    | .wild, .scalar n => .spans [offsetSpan (Span.mk 0 e 1) (e * n)]
    | .wild, .spans ss => .spans (Span.mk 0 e 1 :: scaleSpans e ss)
  | _, _ => .scalar 0

/-! ## StridedShape (produced by sub-viewing) -/

/-- `StridedShape<Rank>` data: per-dimension extents and strides, element
count `len` = product of extents.  Built from a span tuple by the constructor
`StridedShape(const std::array<span, Rank>&)`:
`_shape[d] = spans[d].size(); strides[d] = spans[d].stride; len = Π _shape[d]`. -/
structure StridedShape where
  extents : List ℕ
  strides : List ℕ
  deriving DecidableEq, Repr

def mkStrided (ss : List Span) : StridedShape :=
  ⟨ss.map spanSize, ss.map Span.stride⟩

def StridedShape.len (sh : StridedShape) : ℕ := sh.extents.prod

/-- `StridedShape<Rank>::operator[]` (flat-to-offset), release value:
`return index * strides[0];` — for every rank. -/
def stridedFlat (sh : StridedShape) (i : ℕ) : ℕ := i * sh.strides.headD 0

/-- `StridedShape<1>` data: `len{x.size()}, stride{x.stride}`. -/
structure Strided1 where
  len : ℕ
  stride : ℕ
  deriving DecidableEq, Repr

def mkStrided1 (x : Span) : Strided1 := ⟨spanSize x, x.stride⟩

/-- `StridedShape<1>::operator[]`: `return index * stride;`. -/
def strided1Flat (sh : Strided1) (i : ℕ) : ℕ := i * sh.stride

/-- `StridedShape<1>::operator()(span)` debug path: the bounds check is
`if (x.end >= len) tensor_out_of_range(...)`, then `return stride * x;`. -/
def strided1SpanCheck (sh : Strided1) (x : Span) : Except TError Span :=
  if sh.len ≤ x.end_ then .error .outOfRange else .ok (scaleSpan sh.stride x)

/-- Last-dimension `span` bounds check of `DynamicTensorShape::compute_index`
(same form in `FixedTensorShape` and `StridedShape<Rank>`):
`if (x.end > _shape[Dim]) tensor_out_of_range(...)`, then the span itself is
returned at the last dimension. -/
def dynSpanCheckLast (e : ℕ) (x : Span) : Except TError Span :=
  if e < x.end_ then .error .outOfRange else .ok x

/-! ## Sub-view element access

`make_subview` (BaseTensor.hpp:18-36) builds `StridedShape(spans)` and a view
container anchored at `offset(spans)`; element access of the resulting
tensor at integer indices applies the strided index computation on top of the
anchored view.  The backing buffer is modeled as a function `ℕ → ℤ`. -/

def subAt (buf : ℕ → ℤ) (ss : List Span) (idx : List ℕ) : ℤ :=
  buf (offsetOf ss + strided_compute idx (ss.map Span.stride))

/-- Multi-dimensional element access of a Dynamic/Fixed tensor over a buffer:
`Container::get(Shape::evaluate(indices))`. -/
def viewAt (buf : ℕ → ℤ) (idx es : List ℕ) : ℤ := buf (compute_index idx es)

/-- Flat offsets visited by iterating `0 .. len` through the rank-`N`
strided flat-to-offset map. -/
def flatOffsets (sh : StridedShape) : List ℕ :=
  (List.range sh.len).map (stridedFlat sh)

/-- All in-range coordinate tuples of an extent list, in nested-loop order
(dimension 0 outermost). -/
def coordTuples : List ℕ → List (List ℕ)
  | [] => [[]]
  | e :: es => (List.range e).flatMap (fun i => (coordTuples es).map (i :: ·))

/-- Physical offsets visited by the nested loop over the original
multi-dimensional coordinates of a strided shape. -/
def nestedOffsets (sh : StridedShape) : List ℕ :=
  (coordTuples sh.extents).map (fun idx => strided_compute idx sh.strides)

/-! ## DynamicTensorShape (DynamicTensorShape.hpp) -/

/-- `DynamicTensorShape<Rank>` data: `index_t len; std::array<index_t, Rank> _shape;`. -/
structure DynamicTensorShape where
  len : ℕ
  shape_arr : List ℕ
  deriving DecidableEq, Repr

/-- The release-path constructor value (DynamicTensorShape.hpp:15-31):
`len = (1 * ... * shape_)`, `_shape = {shape_...}` padded with trailing `1`s
up to `Rank`.  Arguments are already non-negative here (the debug sign check
is `dynMkChecked`). -/
def dynMk (Rank : ℕ) (args : List ℕ) : DynamicTensorShape :=
  ⟨args.prod, args ++ List.replicate (Rank - args.length) 1⟩

/-- The `TENSOR_DEBUG` construction path: `if (((shape_ < 0) || ... || false))
tensor_bad_shape();` — only a negative argument signals BadShape.  Arguments
are the user-supplied signed integers (before conversion to `index_t`). -/
def dynMkChecked (Rank : ℕ) (args : List ℤ) : Except TError DynamicTensorShape :=
  if args.any (fun a => a < 0) then .error .badShape
  else .ok (dynMk Rank (args.map Int.toNat))

/-- `DynamicTensorShape::reshape` (DynamicTensorShape.hpp:75-92), release
value: `_shape = {new_shape...}` padded with trailing `1`s, `len = (1 * ... * new_shape)`. -/
def dynReshape (Rank : ℕ) (args : List ℕ) : DynamicTensorShape :=
  ⟨args.prod, args ++ List.replicate (Rank - args.length) 1⟩

/-- The `TENSOR_DEBUG` reshape path: same sign-only check as construction. -/
def dynReshapeChecked (Rank : ℕ) (args : List ℤ) : Except TError DynamicTensorShape :=
  if args.any (fun a => a < 0) then .error .badShape
  else .ok (dynReshape Rank (args.map Int.toNat))

/-- `DynamicTensorShape::operator[]` (linear / flat-to-offset) debug path:
`if (index >= len) tensor_out_of_range(...); return index;` — identity. -/
def dynLinearChecked (sh : DynamicTensorShape) (i : ℕ) : Except TError ℕ :=
  if sh.len ≤ i then .error .outOfRange else .ok i

/-! ## TensorView (DynamicTensorView.hpp)

A `TensorView` holds a `DynamicTensorShape` and a `ViewContainer` (one raw
pointer).  The external buffer is modeled as an explicit memory function
`ℕ → ℤ` alongside the view; the view's pointer is an address into it. -/

structure TensorViewM where
  shape : DynamicTensorShape
  ptr : ℕ
  deriving DecidableEq, Repr

/-- `TensorView::reshape(new_shape...)` (DynamicTensorView.hpp:211-216):
`this->_shape.reshape(new_shape...); return *this;` — the container is not
touched.  State = (external memory, view). -/
def reshapeView (Rank : ℕ) (st : (ℕ → ℤ) × TensorViewM) (args : List ℕ) :
    (ℕ → ℤ) × TensorViewM :=
  (st.1, { st.2 with shape := dynReshape Rank args })

/-! ## Transformed containers (Transformer.hpp) -/

/-- `TransformedContainerWrapper<Container, Func>`: the wrapped container
(modeled by its element-access function) plus the stored unary function.
`operator[](index)`: `value = _container[index]; return _func(value);`. -/
structure TransformedContainerWrapper (α β : Type) where
  container : ℕ → α
  func : α → β

def TransformedContainerWrapper.get (w : TransformedContainerWrapper α β)
    (i : ℕ) : β :=
  w.func (w.container i)

/-- `transform(G&&, Transformer<F, Shape, Container>&&)`
(Transformer.hpp:134-151): builds `gf = [g, f](x){ return g(f(x)); }` and a
`Transformer` over the *original* inner container `container._container` —
the composed-function law.  (The const-lvalue overload at lines 153-166 is the
same law via `_ComposedFunction{f, g}` over a view of the inner container.) -/
def transform_transformer (g : β → γ) (w : TransformedContainerWrapper α β) :
    TransformedContainerWrapper α γ :=
  ⟨w.container, fun x => g (w.func x)⟩

/-- A chain of `transform` applications on an existing `Transformer`. -/
def chainTransforms (fs : List (β → β)) (w : TransformedContainerWrapper α β) :
    TransformedContainerWrapper α β :=
  fs.foldl (fun acc g => transform_transformer g acc) w

/-! ## TensorIterator (BaseTensor.hpp:58-190)

State: shape (by value), container view (by value), linear position.
For iterators of a `TensorView`, the shape is a `DynamicTensorShape` and the
container a `ViewContainer` (possibly-null pointer, modeled as
`Option (ℕ → ℤ)`).  A default-constructed iterator has the
default-constructed shape (`len = 0`, extents zero) and a null container. -/

structure TensorIterator where
  shape : DynamicTensorShape
  container : Option (ℕ → ℤ)
  pos : ℕ

/-- `TensorIterator::operator==`: `return _pos == other._pos;` — position only. -/
def iterEq (a b : TensorIterator) : Bool := a.pos == b.pos

/-- `TensorIterator::operator*` in a debug build:
`_container[_shape[_pos]]` — first the shape's linear-index bounds check
(`index >= len` → OutOfRange), then `ViewContainer::operator[]`
(`ptr == nullptr` → BadAccess, part_005:32-48), else the element read. -/
def derefDebug (it : TensorIterator) : Except TError ℤ :=
  match dynLinearChecked it.shape it.pos with
  | .error e => .error e
  | .ok off =>
    match it.container with
    | none => .error .badAccess
    | some f => .ok (f off)

/-- `DynamicTensorShape()` default constructor: `len{0}, _shape{}`
(value-initialized extents). -/
def dynDefaultShape (Rank : ℕ) : DynamicTensorShape :=
  ⟨0, List.replicate Rank 0⟩

/-- The `FixedTensorShape<2,3>` analogue of the iterator's shape slot:
its `operator[]` checks against the compile-time `len = 6`; the shape carries
no runtime data, so a default-constructed fixed-shape iterator still has
`len = 6`. -/
def fixedShape23 : DynamicTensorShape := ⟨6, [2, 3]⟩

/-! ## Helper lemmas -/

/-- In-range index tuples map below the product of the extents. -/
theorem compute_lt_prod : ∀ (is es : List ℕ), inRangeB is es = true →
    compute_index is es < es.prod
  | [], [] => by simp [inRangeB, compute_index]
  | [], _ :: _ => by simp [inRangeB]
  | _ :: _, [] => by simp [inRangeB]
  | i :: is, e :: es => by
    intro h
    simp only [inRangeB, Bool.and_eq_true, decide_eq_true_eq] at h
    obtain ⟨hi, hrest⟩ := h
    have ih := compute_lt_prod is es hrest
    simp only [compute_index, List.prod_cons]
    calc i + e * compute_index is es
        < e + e * compute_index is es := by omega
      _ = e * (compute_index is es + 1) := by ring
      _ ≤ e * es.prod := Nat.mul_le_mul_left e ih

/-- The all-integer index map is injective on in-range tuples. -/
theorem compute_inj : ∀ (is js es : List ℕ), inRangeB is es = true →
    inRangeB js es = true → compute_index is es = compute_index js es → is = js
  | [], [], [] => by intro _ _ _; rfl
  | [], _ :: _, [] => by intro _ h2 _; simp [inRangeB] at h2
  | _ :: _, _, [] => by intro h1 _ _; simp [inRangeB] at h1
  | [], _, _ :: _ => by intro h1 _ _; simp [inRangeB] at h1
  | _ :: _, [], _ :: _ => by intro _ h2 _; simp [inRangeB] at h2
  | i :: is, j :: js, e :: es => by
    intro h1 h2 heq
    simp only [inRangeB, Bool.and_eq_true, decide_eq_true_eq] at h1 h2
    obtain ⟨hi, h1⟩ := h1
    obtain ⟨hj, h2⟩ := h2
    simp only [compute_index] at heq
    have hij : i = j := by
      calc i = (i + e * compute_index is es) % e := by
            rw [Nat.add_mul_mod_self_left, Nat.mod_eq_of_lt hi]
        _ = (j + e * compute_index js es) % e := by rw [heq]
        _ = j := by rw [Nat.add_mul_mod_self_left, Nat.mod_eq_of_lt hj]
    subst hij
    have epos : 0 < e := Nat.lt_of_le_of_lt (Nat.zero_le i) hi
    have hc : compute_index is es = compute_index js es :=
      Nat.eq_of_mul_eq_mul_left epos (by omega)
    rw [compute_inj is js es h1 h2 hc]

/-- Every offset below the product of the extents is attained. -/
theorem compute_surj : ∀ (es : List ℕ) (n : ℕ), n < es.prod →
    ∃ is, inRangeB is es = true ∧ compute_index is es = n
  | [], n => by
    intro hn
    simp only [List.prod_nil, Nat.lt_one_iff] at hn
    exact ⟨[], by simp [inRangeB], by simp [compute_index, hn]⟩
  | e :: es, n => by
    intro hn
    simp only [List.prod_cons] at hn
    rcases Nat.eq_zero_or_pos e with he | he
    · subst he; simp at hn
    have hdiv : n / e < es.prod := Nat.div_lt_of_lt_mul hn
    obtain ⟨is, hin, hc⟩ := compute_surj es (n / e) hdiv
    refine ⟨n % e :: is, ?_, ?_⟩
    · simp [inRangeB, Nat.mod_lt n he, hin]
    · simp only [compute_index, hc]
      exact Nat.mod_add_div n e

/-- A chain of `transform`s leaves the wrapped inner container untouched. -/
theorem chainTransforms_container {α β : Type} : ∀ (fs : List (β → β))
    (w : TransformedContainerWrapper α β),
    (chainTransforms fs w).container = w.container
  | [], _ => rfl
  | g :: fs, w => chainTransforms_container fs (transform_transformer g w)

/-! ## Claims -/

/-- C1 counterexample: for the Dynamic shape with extents `(2, 3)`,
incrementing the last index by one at the origin changes the linear offset
by the extent of dimension 0 (here 2), not by one — the layout is not
row-major with a contiguous last dimension. -/
theorem c1_counterexample :
    ¬ (compute_index [0, 1] [2, 3] = compute_index [0, 0] [2, 3] + 1) := by
  decide

/-- C1 (amended): `evaluate` accumulates positional strides left-to-right
(column-major): for Dynamic and Fixed shapes the *first* dimension is
contiguous — incrementing the first index of an in-range tuple by one changes
the linear offset by one — and for a Strided shape incrementing the first
index changes the offset by the leading stride `strides[0]`. -/
theorem c1_first_dim_contiguous (i : ℕ) (is : List ℕ) (e : ℕ) (es : List ℕ)
    (s : ℕ) (ss : List ℕ) (h : i + 1 < e) (hrest : inRangeB is es = true) :
    compute_index ((i + 1) :: is) (e :: es) = compute_index (i :: is) (e :: es) + 1 ∧
    strided_compute ((i + 1) :: is) (s :: ss) = strided_compute (i :: is) (s :: ss) + s := by
  constructor
  · simp only [compute_index]; omega
  · simp only [strided_compute]; ring

theorem c1_witness :
    compute_index [1, 0] [2, 3] = compute_index [0, 0] [2, 3] + 1 ∧
    strided_compute [1, 0] [1, 5] = strided_compute [0, 0] [1, 5] + 1 :=
  c1_first_dim_contiguous 0 [0] 2 [3] 1 [5] (by decide) (by decide)

/-- C2 counterexample: the sub-view `T(span(0,2), span(0,2))` of a Dynamic
tensor of shape `(5, 10)` yields the strided shape with spans
`[(0,2,1), (0,10,5)]` (extents `(2,2)`, strides `(1,5)`); iterating
`0 .. element_count()` through `operator[]` visits offset `2`, which the
nested loop over the original coordinates never visits — the linear-index
operator performs no multi-dimensional unravel. -/
theorem c2_counterexample :
    evaluateArgs [Arg.range (Span.mk 0 2 1), Arg.range (Span.mk 0 2 1)] [5, 10]
      = .spans [Span.mk 0 2 1, Span.mk 0 10 5] ∧
    2 ∈ flatOffsets (mkStrided [Span.mk 0 2 1, Span.mk 0 10 5]) ∧
    2 ∉ nestedOffsets (mkStrided [Span.mk 0 2 1, Span.mk 0 10 5]) := by
  decide

/-- C2 (amended): for a Strided shape of any rank, `operator[]` (the shape's
linear-index map) returns `i * strides[0]` — the linear position reweighted by
the leading stride only, with no unravel; in particular for rank 1 it returns
`i * leading_stride` as claimed. -/
theorem c2_flat_is_leading_stride (ss : List Span) (sp : Span) (i : ℕ) :
    stridedFlat (mkStrided ss) i = i * ((ss.map Span.stride).headD 0) ∧
    strided1Flat (mkStrided1 sp) i = i * sp.stride :=
  ⟨rfl, rfl⟩

/-- The 6-element buffer `[1, 2, 3, 4, 5, 6]` of the end-to-end example. -/
def b6 : ℕ → ℤ := fun i => ([1, 2, 3, 4, 5, 6] : List ℤ).getD i 0

/-- C3: over the buffer `[1,2,3,4,5,6]` with extents `(2,3)`,
multi-dimensional indexing returns `T(0,0)=1, T(1,0)=2, T(0,1)=3, T(1,1)=4,
T(0,2)=5, T(1,2)=6`; the linear index 3 passes the debug bounds check
(`3 < len = 6`), maps to container offset 3 (identity), and `T[3] = 4`. -/
theorem c3_example_access :
    viewAt b6 [0, 0] [2, 3] = 1 ∧ viewAt b6 [1, 0] [2, 3] = 2 ∧
    viewAt b6 [0, 1] [2, 3] = 3 ∧ viewAt b6 [1, 1] [2, 3] = 4 ∧
    viewAt b6 [0, 2] [2, 3] = 5 ∧ viewAt b6 [1, 2] [2, 3] = 6 ∧
    dynLinearChecked (dynMk 2 [2, 3]) 3 = .ok 3 ∧ b6 3 = 4 :=
  ⟨rfl, rfl, rfl, rfl, rfl, rfl, rfl, rfl⟩

/-- C4: for every Dynamic or Fixed shape, the all-integer `evaluate`
restricted to in-range tuples is injective and its image is exactly
`[0, e1 * ... * eN)`: in-range tuples map below the product, and every
offset below the product is attained by an in-range tuple. -/
theorem c4_evaluate_bijective (es : List ℕ) :
    (∀ is js, inRangeB is es = true → inRangeB js es = true →
      compute_index is es = compute_index js es → is = js) ∧
    (∀ is, inRangeB is es = true → compute_index is es < es.prod) ∧
    (∀ n, n < es.prod → ∃ is, inRangeB is es = true ∧ compute_index is es = n) :=
  ⟨fun is js h1 h2 h3 => compute_inj is js es h1 h2 h3,
   fun is h => compute_lt_prod is es h,
   fun n h => compute_surj es n h⟩

theorem c4_witness :
    ([1, 2] : List ℕ) = [1, 2] ∧
    compute_index [1, 2] [2, 3] < List.prod [2, 3] ∧
    ∃ is, inRangeB is [2, 3] = true ∧ compute_index is [2, 3] = 5 :=
  ⟨(c4_evaluate_bijective [2, 3]).1 [1, 2] [1, 2] (by decide) (by decide) rfl,
   (c4_evaluate_bijective [2, 3]).2.1 [1, 2] (by decide),
   (c4_evaluate_bijective [2, 3]).2.2 5 (by decide)⟩

/-- C5: indexing a tensor of extents `(5, 10, 2, 5)` with
`(all, 2, span(0,1), span(2,4))` evaluates to the span tuple
`[(0,5,1), (10,60,50), (200,400,100)]`; the strided shape built from it has
extents `(5, 1, 2)`, and for all valid `i, j, k` the sub-view element
equals the parent element `T(i, 2, j, 2+k)` over any buffer. -/
theorem c5_subview_correct :
    evaluateArgs [Arg.wild, Arg.int 2, Arg.range (Span.mk 0 1 1),
        Arg.range (Span.mk 2 4 1)] [5, 10, 2, 5]
      = .spans [Span.mk 0 5 1, Span.mk 10 60 50, Span.mk 200 400 100] ∧
    (mkStrided [Span.mk 0 5 1, Span.mk 10 60 50, Span.mk 200 400 100]).extents
      = [5, 1, 2] ∧
    ∀ (buf : ℕ → ℤ) (i j k : ℕ), i < 5 → j < 1 → k < 2 →
      subAt buf [Span.mk 0 5 1, Span.mk 10 60 50, Span.mk 200 400 100] [i, j, k]
        = viewAt buf [i, 2, j, 2 + k] [5, 10, 2, 5] := by
  refine ⟨by decide, by decide, ?_⟩
  intro buf i j k hi hj hk
  have harith :
      offsetOf [Span.mk 0 5 1, Span.mk 10 60 50, Span.mk 200 400 100] +
        strided_compute [i, j, k]
          ([Span.mk 0 5 1, Span.mk 10 60 50, Span.mk 200 400 100].map Span.stride)
      = compute_index [i, 2, j, 2 + k] [5, 10, 2, 5] := by
    simp [offsetOf, strided_compute, compute_index]
    ring_nf
  simp only [subAt, viewAt, harith]

theorem c5_witness :
    subAt (fun _ => (7 : ℤ)) [Span.mk 0 5 1, Span.mk 10 60 50, Span.mk 200 400 100]
        [0, 0, 0]
      = viewAt (fun _ => (7 : ℤ)) [0, 2, 0, 2 + 0] [5, 10, 2, 5] :=
  c5_subview_correct.2.2 (fun _ => (7 : ℤ)) 0 0 0 (by decide) (by decide) (by decide)

/-- C6: applying `transform` with `g` to a tensor that is already a
`Transformer` with function `f` yields `g (f (inner i))` at every linear
index, and the transformed container wraps the *original* inner container
with the composed function — so for an arbitrary chain of maps the wrapped
inner container is still the original one (wrapper depth stays constant). -/
theorem c6_transform_composition (g f : ℤ → ℤ) (inner : ℕ → ℤ) (i : ℕ)
    (fs : List (ℤ → ℤ)) :
    (transform_transformer g ⟨inner, f⟩).get i = g (f (inner i)) ∧
    (transform_transformer g ⟨inner, f⟩).container = inner ∧
    (chainTransforms fs ⟨inner, f⟩).container = inner :=
  ⟨rfl, rfl, chainTransforms_container fs ⟨inner, f⟩⟩

/-- C7: the debug check of `DynamicTensorShape` construction and reshape is
`shape_ < 0` — a zero extent is accepted without `BadShape` (yielding a shape
with `len = 0` and a non-positive extent), while a negative extent is
rejected.  This contradicts the library's own `tensor_bad_shape` message
("all dimensions must be strictly positive"). -/
theorem c7_zero_extent_accepted :
    dynMkChecked 1 [0] = .ok ⟨0, [0]⟩ ∧
    dynReshapeChecked 2 [0, 3] = .ok ⟨0, [0, 3]⟩ ∧
    dynMkChecked 1 [-1] = .error .badShape :=
  ⟨rfl, rfl, rfl⟩

/-- C8 counterexample: a value-initialized sentinel iterator (default shape
`len = 0`, null container, position 0) compares equal (`operator==`) to a
valid iterator at position 0 over the tensor of extents `(2,3)` — equality
inspects only the position — and dereferencing the sentinel in a debug build
signals OutOfRange (the default shape's `index >= len` check fires first),
not BadAccess. -/
theorem c8_counterexample :
    iterEq ⟨dynDefaultShape 2, none, 0⟩
        ⟨dynMk 2 [2, 3], some (fun i => (i : ℤ)), 0⟩ = true ∧
    derefDebug ⟨dynDefaultShape 2, none, 0⟩ = .error .outOfRange :=
  ⟨rfl, rfl⟩

/-- C8 (amended): iterator comparisons inspect only the position, so a
default-constructed (sentinel) iterator compares equal to any valid iterator
at the same position — it is not distinguishable from valid iterators.
Dereferencing a sentinel in a debug build does fail safely with an error
rather than reading from the unset container: OutOfRange for dynamic-shape
iterators (the default shape has `len = 0`, so the bounds check fires for
every position), and BadAccess from the null-container check for fixed-shape
iterators whose position passes the compile-time bounds check. -/
theorem c8_sentinel_behavior (p : ℕ) (v : TensorIterator) (hv : v.pos = p) :
    iterEq ⟨dynDefaultShape 2, none, p⟩ v = true ∧
    derefDebug ⟨dynDefaultShape 2, none, p⟩ = .error .outOfRange ∧
    (p < 6 → derefDebug ⟨fixedShape23, none, p⟩ = .error .badAccess) := by
  refine ⟨?_, ?_, ?_⟩
  · simp [iterEq, hv]
  · simp [derefDebug, dynLinearChecked, dynDefaultShape]
  · intro hp
    simp [derefDebug, dynLinearChecked, fixedShape23, Nat.not_le.mpr hp]

theorem c8_witness :
    iterEq ⟨dynDefaultShape 2, none, 0⟩
        ⟨dynMk 2 [2, 3], some (fun i => (i : ℤ)), 0⟩ = true ∧
    derefDebug ⟨dynDefaultShape 2, none, 0⟩ = .error .outOfRange ∧
    (0 < 6 → derefDebug ⟨fixedShape23, none, 0⟩ = .error .badAccess) :=
  c8_sentinel_behavior 0 ⟨dynMk 2 [2, 3], some (fun i => (i : ℤ)), 0⟩ rfl

/-- C9: a rank-1 strided sub-view shape of length `n` rejects the in-bounds
full-extent range `span(0, n)` with OutOfRange, because its span check is
`x.end >= len`; every other variant (here the Dynamic shape's span check on
an extent-`n` dimension) uses `x.end > extent` and accepts the same range. -/
theorem c9_strided1_full_range_rejected (x : Span) (n : ℕ)
    (h : spanSize x = n) :
    strided1SpanCheck (mkStrided1 x) (Span.mk 0 n 1) = .error .outOfRange ∧
    dynSpanCheckLast n (Span.mk 0 n 1) = .ok (Span.mk 0 n 1) := by
  constructor
  · simp [strided1SpanCheck, mkStrided1, h]
  · simp [dynSpanCheckLast]

theorem c9_witness :
    strided1SpanCheck (mkStrided1 (Span.mk 0 4 1)) (Span.mk 0 4 1)
      = .error .outOfRange ∧
    dynSpanCheckLast 4 (Span.mk 0 4 1) = .ok (Span.mk 0 4 1) :=
  c9_strided1_full_range_rejected (Span.mk 0 4 1) 4 (by decide)

/-- C10: `TensorView::reshape` mutates only the shape: the external memory is
untouched, the container's data pointer is identical to the pointer before
the call, and `size()` after the reshape equals the product of the supplied
extents (trailing axes are padded with extent 1, which does not change the
product). -/
theorem c10_reshape_frame (Rank : ℕ) (mem : ℕ → ℤ) (T : TensorViewM)
    (args : List ℕ) (h : args.length ≤ Rank) :
    (reshapeView Rank (mem, T) args).1 = mem ∧
    (reshapeView Rank (mem, T) args).2.ptr = T.ptr ∧
    (reshapeView Rank (mem, T) args).2.shape.len = args.prod :=
  ⟨rfl, rfl, rfl⟩

theorem c10_witness :
    (reshapeView 2 ((fun _ => (0 : ℤ)), ⟨dynMk 2 [2, 3], 0⟩) [3, 2]).1
        = (fun _ => (0 : ℤ)) ∧
    (reshapeView 2 ((fun _ => (0 : ℤ)), ⟨dynMk 2 [2, 3], 0⟩) [3, 2]).2.ptr
        = (⟨dynMk 2 [2, 3], 0⟩ : TensorViewM).ptr ∧
    (reshapeView 2 ((fun _ => (0 : ℤ)), ⟨dynMk 2 [2, 3], 0⟩) [3, 2]).2.shape.len
        = List.prod [3, 2] :=
  c10_reshape_frame 2 (fun _ => (0 : ℤ)) ⟨dynMk 2 [2, 3], 0⟩ [3, 2] (by decide)

end TensorViewModel
